import Mathlib

/-!
Verification development for the rs-read-trimesh mesh loader.

The Rust sources (src/lib.rs) are shallowly embedded below:
* machine `u32` values are `Nat` with explicit `% 2^32` where wraparound matters,
* `f32` coordinates are modelled as exact rationals `ℚ` (float rounding is not
  modelled; no claim under study depends on rounding of coordinates),
* fallible functions return `Except (List Char) _` carrying the exact error
  message the Rust code formats (messages are lists of characters),
* the external parsers (ply-rs, stl_io, tobj, dae-parser, std's `Path`) are
  collaborators: the extractors are embedded as functions of the parsed
  documents those collaborators hand to the repository's code.
-/

/-- Coordinates of one vertex, `Point3<f32>` modelled over exact rationals. -/
abbrev V3 : Type := ℚ × ℚ × ℚ


/-- One triangle of vertex indices, `[u32; 3]` modelled as natural numbers. -/
abbrev Tri : Type := ℕ × ℕ × ℕ


/-- A raw sub-mesh as produced by every extractor: `(Vec<Point3<f32>>, Vec<[u32; 3]>)`. -/
abbrev SubMesh : Type := List V3 × List Tri


/-- Error messages are character lists (Rust `String`). -/
abbrev Msg : Type := List Char


/-- Characters of a string literal, used to embed Rust format strings. -/
def chars (s : String) : Msg := s.data

/-- Truncation to 32 bits: the effect of `as u32` and of wrapping `u32` arithmetic. -/
def u32 (n : ℕ) : ℕ := n % 4294967296

/-- Wrapping `u32` addition. -/
def u32add (a b : ℕ) : ℕ := u32 (a + b)

/-- Exact grouping into triples: Rust's `chunks_exact(3)`, which silently drops
the 1–2 leftover elements when the length is not a multiple of 3. -/
def chunksExact3 {α : Type} : List α → List (α × α × α)
  | a :: b :: c :: rest => (a, b, c) :: chunksExact3 rest
  | _ => []

/-- The loop body of `merge_meshes` (src/lib.rs lines 377–394): accumulators for
merged vertices, merged indices, and the running `u32` vertex offset. -/
def mergeLoop : List SubMesh → List V3 → List Tri → ℕ → SubMesh
  | [], vacc, iacc, _ => (vacc, iacc)
  | (vs, is) :: rest, vacc, iacc, off =>
      mergeLoop rest (vacc ++ vs)
        (iacc ++ is.map (fun t => (u32add t.1 off, u32add t.2.1 off, u32add t.2.2 off)))
        (u32add off (u32 vs.length))

/-- `merge_meshes` (src/lib.rs lines 369–397): a single sub-mesh is returned as is;
otherwise the sub-meshes are folded with `mergeLoop` starting from empty
accumulators and offset `0u32`. -/
def merge_meshes (ms : List SubMesh) : SubMesh :=
  match ms with
  | [m] => m
  | _ => mergeLoop ms [] [] 0

/-- The evolution of the running `u32` vertex-count accumulator of the merge
loop (`vertex_offset`, src/lib.rs lines 379/393): literally the offset argument
recursion of `mergeLoop`, which `merge_meshes` executes on every input other
than a single sub-mesh (a singleton takes the early return, so no accumulation
happens there at all). -/
def mergeLoopOffset : List SubMesh → ℕ → ℕ
  | [], off => off
  | (vs, _) :: rest, off => mergeLoopOffset rest (u32add off (u32 vs.length))

/-- Shift all three indices of a triangle by an offset, in `u32` arithmetic. -/
def addOffTri (off : ℕ) (t : Tri) : Tri :=
  (u32add t.1 off, u32add t.2.1 off, u32add t.2.2 off)

/-- The index rebasing `merge_meshes` actually performs, written as a fold over
the exact running total: each sub-mesh's indices are shifted by the total in
wrapping `u32` arithmetic (the loop's wrapped accumulator computes the same
values, since wrapping the offset changes nothing modulo `2^32`). -/
def specMergeIdx : List SubMesh → ℕ → List Tri
  | [], _ => []
  | m :: rest, total => m.2.map (addOffTri total) ++ specMergeIdx rest (total + m.1.length)

/-- Modelled from the spec (§4.6 MeshMerger, §9): the contractual index
concatenation as an explicit fold — each sub-mesh's indices increased exactly,
with no wraparound, by the running total of vertices contributed by all
strictly earlier sub-meshes. -/
def specMergeIdxExact : List SubMesh → ℕ → List Tri
  | [], _ => []
  | (vs, is) :: rest, total =>
    is.map (fun t => (t.1 + total, t.2.1 + total, t.2.2 + total))
      ++ specMergeIdxExact rest (total + vs.length)

/-- Modelled from the spec (§4.6 MeshMerger): the contractual merge — vertex
sequences concatenated in order, each sub-mesh's indices increased exactly by
the running total of vertices of all strictly earlier sub-meshes. -/
def specMergeExact (ms : List SubMesh) : SubMesh :=
  ((ms.map Prod.fst).flatten, specMergeIdxExact ms 0)

/-- The exact total vertex count of a sequence of sub-meshes. -/
def totalVerts (ms : List SubMesh) : ℕ :=
  (ms.map (fun m => m.1.length)).sum

/-- The typed property values of the external PLY parser (`ply_rs_bw::ply::Property`),
restricted to the variants the repository's code distinguishes. Integer list
payloads carry their mathematical values (`ℤ` for the signed, `ℕ` for the
unsigned widths); coordinates are exact rationals. -/
inductive Property : Type
  | float : ℚ → Property
  | double : ℚ → Property
  | listUInt : List ℕ → Property
  | listInt : List ℤ → Property
  | listUShort : List ℕ → Property
  | listShort : List ℤ → Property
  | otherProp : Property
deriving DecidableEq

/-- One parsed PLY element record: a mapping from property names to values
(`DefaultElement`), modelled as an association list. -/
abbrev PlyRecord : Type := List (String × Property)

/-- The parsed PLY payload: named element blocks such as `vertex` and `face`. -/
abbrev PlyPayload : Type := List (String × List PlyRecord)

/-- Rust `TryInto<u32> for u32 / u16`: always succeeds (values are `ℕ`). -/
def tryIntoU32ofNat (v : ℕ) : Option ℕ := some v

/-- Rust `TryInto<u32> for i32 / i16`: succeeds exactly on non-negative values. -/
def tryIntoU32ofInt (v : ℤ) : Option ℕ := if 0 ≤ v then some v.toNat else none

/-- The too-short-list error message of `extract_indices` (src/lib.rs line 205),
formatted with the face's enumeration index. -/
def insuffMsg (i : ℕ) : Msg :=
  chars ("Insufficient indices for a triangle in face ") ++ (toString i).data

/-- `extract_indices` (src/lib.rs lines 199–219), generic over the element type
and its fallible conversion to `u32`: a list shorter than 3 is rejected with an
error naming the face index `i`; otherwise exactly the first three elements are
converted and any further elements are ignored. -/
def extract_indices {α : Type} (tryInto : α → Option ℕ) (indices_list : List α)
    (i : ℕ) : Except Msg Tri :=
  if indices_list.length < 3 then
    .error (insuffMsg i)
  else
    match indices_list with
    | a0 :: a1 :: a2 :: _ =>
      match tryInto a0 with
      | none => .error (chars ("Failed to convert index 0 in face ") ++ (toString i).data
          ++ chars (" to u32"))
      | some a =>
        match tryInto a1 with
        | none => .error (chars ("Failed to convert index 1 in face ") ++ (toString i).data
            ++ chars (" to u32"))
        | some b =>
          match tryInto a2 with
          | none => .error (chars ("Failed to convert index 2 in face ") ++ (toString i).data
              ++ chars (" to u32"))
          | some c => .ok (a, b, c)
    | _ => .error (insuffMsg i)

/-- The match on the `vertex_indices` property of one face record inside the face
loop of `load_trimesh_from_ply` (src/lib.rs lines 164–190). -/
def faceTri (face : PlyRecord) (i : ℕ) : Except Msg Tri :=
  match face.lookup ("vertex_indices") with
  | some (Property.listUInt l) => extract_indices tryIntoU32ofNat l i
  | some (Property.listInt l) => extract_indices tryIntoU32ofInt l i
  | some (Property.listUShort l) => extract_indices tryIntoU32ofNat l i
  | some (Property.listShort l) => extract_indices tryIntoU32ofInt l i
  | some _ => .error (chars ("Unexpected property type for \x27vertex_indices\x27 in face ")
      ++ (toString i).data)
  | none => .error (chars ("Missing \x27vertex_indices\x27 property for face ")
      ++ (toString i).data)

/-- The face loop of `load_trimesh_from_ply`: faces are processed in order with a
running enumeration index; the first failure short-circuits. -/
def extractFaces : List PlyRecord → ℕ → Except Msg (List Tri)
  | [], _ => .ok []
  | f :: fs, i =>
    match faceTri f i with
    | .error e => .error e
    | .ok t =>
      match extractFaces fs (i + 1) with
      | .error e => .error e
      | .ok ts => .ok (t :: ts)

/-- Coercion of one named coordinate property of a vertex record to `f32`
(src/lib.rs lines 130–155): `Float` and `Double` are accepted (the `f64 → f32`
cast is the identity in the rational model), anything else is a type error,
a missing property is a missing-data error. -/
def getCoord (vertex : PlyRecord) (name : String) : Except Msg ℚ :=
  match vertex.lookup name with
  | none => .error (chars ("Missing \x27") ++ name.data ++ chars ("\x27 coordinate in vertex"))
  | some (Property.float v) => .ok v
  | some (Property.double v) => .ok v
  | some _ => .error (chars ("Unexpected type for vertex \x27") ++ name.data
      ++ chars ("\x27 coordinate"))

/-- The vertex loop of `load_trimesh_from_ply` (src/lib.rs lines 128–158):
each record must provide coercible `x`, `y`, `z` coordinates in that order. -/
def extractVertices : List PlyRecord → Except Msg (List V3)
  | [] => .ok []
  | v :: vs =>
    match getCoord v ("x") with
    | .error e => .error e
    | .ok x =>
      match getCoord v ("y") with
      | .error e => .error e
      | .ok y =>
        match getCoord v ("z") with
        | .error e => .error e
        | .ok z =>
          match extractVertices vs with
          | .error e => .error e
          | .ok rest => .ok ((x, y, z) :: rest)

/-- `load_trimesh_from_ply` (src/lib.rs lines 111–196) on an already parsed PLY
payload: requires a `vertex` block and a `face` block, extracts vertices then
faces. File opening and header parsing belong to the external collaborator. -/
def load_trimesh_from_ply (payload : PlyPayload) : Except Msg SubMesh :=
  match payload.lookup ("vertex") with
  | none => .error (chars ("No \x27vertex\x27 payload found in the PLY file"))
  | some vrecs =>
    match payload.lookup ("face") with
    | none =>
      match extractVertices vrecs with
      | .error e => .error e
      | .ok _ => .error (chars ("No \x27face\x27 payload found in the PLY file"))
    | some frecs =>
      match extractVertices vrecs with
      | .error e => .error e
      | .ok vs =>
        match extractFaces frecs 0 with
        | .error e => .error e
        | .ok is => .ok (vs, is)

/-- `f32::EPSILON` as an exact rational, `2^-23`. -/
def f32EPSILON : ℚ := 1 / 8388608

/-- The in-place scaling step of `load_trimesh_with_flags` (src/lib.rs lines
99–104): every vertex is multiplied componentwise by `scale`, but only when
`|scale - 1.0|` exceeds `f32::EPSILON`; otherwise the buffer is untouched. -/
def applyScale (scale : ℚ) (vertices : List V3) : List V3 :=
  if |scale - 1| > f32EPSILON then
    vertices.map (fun v => (v.1 * scale, v.2.1 * scale, v.2.2 * scale))
  else
    vertices

/-- `load_trimesh_with_flags` (src/lib.rs lines 71–108) restricted to the PLY
route and the empty flag set, as a function of the parsed PLY payload: extract,
scale, finalize. `TriMesh::with_flags` is an external collaborator (parry3d);
the finalizer for the empty flag set is modelled from the spec: with no
post-processing flags the mesh is returned exactly as extracted/scaled/merged.
No index-bounds validation happens anywhere on this path. -/
def load_ply_trimesh_empty_flags (payload : PlyPayload) (scale : ℚ) :
    Except Msg SubMesh :=
  match load_trimesh_from_ply payload with
  | .error e => .error e
  | .ok m => .ok (applyScale scale m.1, m.2)

/-- The structural invariant claimed by the spec for the final mesh: every
component of every triangle is strictly below the vertex count. -/
def indicesInRange (m : SubMesh) : Prop :=
  ∀ t ∈ m.2, t.1 < m.1.length ∧ t.2.1 < m.1.length ∧ t.2.2 < m.1.length

instance (m : SubMesh) : Decidable (indicesInRange m) := by
  unfold indicesInRange; infer_instance

/-- All integer values stored in a `vertex_indices` list property are, after the
`u32` coercion the code applies, strictly below `n`. Non-list properties hold no
index values. -/
def propValsBelow (p : Property) (n : ℕ) : Prop :=
  match p with
  | Property.listUInt l => ∀ v ∈ l, v < n
  | Property.listInt l => ∀ v ∈ l, v.toNat < n
  | Property.listUShort l => ∀ v ∈ l, v < n
  | Property.listShort l => ∀ v ∈ l, v.toNat < n
  | _ => True

/-- One face record stores only index values below `n` (vacuously true when the
record has no `vertex_indices` property — the loader then fails anyway). -/
def faceValsBelow (f : PlyRecord) (n : ℕ) : Prop :=
  match f.lookup ("vertex_indices") with
  | some p => propValsBelow p n
  | none => True

/-- Every face record of the payload stores only index values below `n`. -/
def payloadFaceIndicesBelow (payload : PlyPayload) (n : ℕ) : Prop :=
  match payload.lookup ("face") with
  | some frecs => ∀ f ∈ frecs, faceValsBelow f n
  | none => True

/-- Every index value stored in the source document's faces is below the number
of vertex records of the source document. -/
def plySourceIndicesInRange (payload : PlyPayload) : Prop :=
  match payload.lookup ("vertex") with
  | some vrecs => payloadFaceIndicesBelow payload vrecs.length
  | none => True

instance (p : Property) (n : ℕ) : Decidable (propValsBelow p n) := by
  cases p <;> simp only [propValsBelow] <;> infer_instance

instance (f : PlyRecord) (n : ℕ) : Decidable (faceValsBelow f n) := by
  unfold faceValsBelow
  rcases f.lookup ("vertex_indices") with _ | p <;> infer_instance

instance (payload : PlyPayload) (n : ℕ) :
    Decidable (payloadFaceIndicesBelow payload n) := by
  unfold payloadFaceIndicesBelow
  rcases payload.lookup ("face") with _ | frecs <;> infer_instance

instance (payload : PlyPayload) : Decidable (plySourceIndicesInRange payload) := by
  unfold plySourceIndicesInRange
  rcases payload.lookup ("vertex") with _ | vrecs <;> infer_instance

/-- Rust `Path::file_name` on a path given as a character list: the part after
the last `/` (external `std` collaborator, modelled for Unix-style paths). -/
def fileNameOf (p : List Char) : List Char :=
  (p.reverse.takeWhile (fun c => c ≠ '/')).reverse

/-- The characters of the file name after its last `.` (reversed scan). -/
def extTail (p : List Char) : List Char :=
  (fileNameOf p).reverse.takeWhile (fun c => c ≠ '.')

/-- Rust `Path::extension` (external `std` collaborator): the portion of the
file name after its last `.`; none when the file name holds no `.` or when its
only `.` is the leading character (hidden files such as `.profile`). -/
def extensionOf (p : List Char) : Option (List Char) :=
  if (extTail p).length = (fileNameOf p).length then none
  else if (fileNameOf p).reverse.drop ((extTail p).length + 1) = [] then none
  else some (extTail p).reverse

/-- The four dispatch targets of `load_trimesh_with_flags`. -/
inductive LoadFormat : Type
  | stl | ply | obj | dae
deriving DecidableEq

/-- The unsupported-extension error of `load_trimesh_with_flags` (src/lib.rs
lines 92–95); the formatted message embeds the whole offending file path. -/
def unsupportedMsg (p : List Char) : Msg :=
  chars ("Unsupported file extension for \x27") ++ p
    ++ chars ("\x27, only .stl, .ply, and .obj are supported.")

/-- The extension dispatch of `load_trimesh_with_flags` (src/lib.rs lines
81–97): the extension is taken case-insensitively; anything but `stl`, `ply`,
`obj`, `dae` (or a missing extension) is rejected. -/
def dispatchFormat (p : List Char) : Except Msg LoadFormat :=
  match (extensionOf p).map (List.map Char.toLower) with
  | some e =>
    if e = ("stl").data then .ok LoadFormat.stl
    else if e = ("ply").data then .ok LoadFormat.ply
    else if e = ("obj").data then .ok LoadFormat.obj
    else if e = ("dae").data then .ok LoadFormat.dae
    else .error (unsupportedMsg p)
  | none => .error (unsupportedMsg p)

/-- The parsed content of one OBJ model's mesh as handed over by the external
`tobj` collaborator: a flat position array and a flat index array (the further
fields — normals, texture coordinates, materials — are unused by the code). -/
structure ObjMesh : Type where
  positions : List ℚ
  indices : List ℕ
deriving DecidableEq

/-- `load_trimesh_from_obj` (src/lib.rs lines 261–289) on the models already
parsed by `tobj`: every model's flat positions and flat indices are grouped
into exact chunks of 3 and concatenated across models; there is no error path
past the external parse and no index rebasing. -/
def load_trimesh_from_obj (models : List ObjMesh) : SubMesh :=
  (models.flatMap (fun m => chunksExact3 m.positions),
   models.flatMap (fun m => chunksExact3 m.indices))

/-- Truncate both flat arrays of an OBJ model to their longest prefix whose
length is a multiple of 3 (what `chunks_exact(3)` actually consumes). -/
def truncObjMesh (m : ObjMesh) : ObjMesh :=
  ⟨m.positions.take (3 * (m.positions.length / 3)),
   m.indices.take (3 * (m.indices.length / 3))⟩

/-- A data array of a scene-graph (DAE) source, from the external `dae_parser`
collaborator: the code only consumes `Float` arrays. -/
inductive DaeArrayElement : Type
  | float : List ℚ → DaeArrayElement
  | otherArray : DaeArrayElement
deriving DecidableEq

/-- A `<source>` of a DAE mesh: an optional id and an optional data array. -/
structure DaeSource : Type where
  id : Option (List Char)
  array : Option DaeArrayElement
deriving DecidableEq

/-- The semantic tag of a DAE input; the code only tests for `Position`. -/
inductive DaeSemantic : Type
  | position | otherSem
deriving DecidableEq

/-- A semantic-tagged input of a DAE `<vertices>` element, with its source URI. -/
structure DaeInput : Type where
  semantic : DaeSemantic
  source : List Char
deriving DecidableEq

/-- The `<vertices>` element of a DAE mesh: its list of inputs. -/
structure DaeVertices : Type where
  inputs : List DaeInput
deriving DecidableEq

/-- A `<triangles>` primitive: its optional flat index payload (`data.prim`),
already widened to `u32` by the external parser. -/
structure DaeTriangles : Type where
  prim : Option (List ℕ)
deriving DecidableEq

/-- A primitive element of a DAE mesh; the code only consumes `Triangles`. -/
inductive DaePrimitive : Type
  | triangles : DaeTriangles → DaePrimitive
  | otherPrim : DaePrimitive
deriving DecidableEq

/-- A DAE mesh definition: optional vertices element, sources, primitives. -/
structure DaeMesh : Type where
  vertices : Option DaeVertices
  sources : List DaeSource
  elements : List DaePrimitive
deriving DecidableEq

/-- The element of a DAE geometry; the code only consumes `Mesh`. -/
inductive DaeGeometryElement : Type
  | mesh : DaeMesh → DaeGeometryElement
  | otherGeom : DaeGeometryElement
deriving DecidableEq

/-- One geometry of the DAE library. -/
structure DaeGeometry : Type where
  element : DaeGeometryElement
deriving DecidableEq

/-- One element of the DAE document library; the code only consumes
`Geometries`. -/
inductive DaeLibraryElement : Type
  | geometries : List DaeGeometry → DaeLibraryElement
  | otherLib : DaeLibraryElement
deriving DecidableEq

/-- A parsed DAE document: its library elements. -/
structure DaeDocument : Type where
  library : List DaeLibraryElement
deriving DecidableEq

/-- `source_uri.strip_prefix('#').unwrap_or(source_uri)` (src/lib.rs line 324). -/
def stripHash : List Char → List Char
  | '#' :: rest => rest
  | uri => uri

/-- The inner source loop of the DAE walk (src/lib.rs lines 326–341): a source
contributes its float array grouped into points exactly when its id matches the
input's stripped source URI. -/
def daeSourcePoints (sid : List Char) (src : DaeSource) : List V3 :=
  match src.id with
  | some id =>
    if id = sid then
      match src.array with
      | some (DaeArrayElement.float positions) => chunksExact3 positions
      | _ => []
    else []
  | none => []

/-- The input loop of the DAE walk (src/lib.rs lines 320–343): only
position-semantic inputs contribute, each gathering over all sources. -/
def daeInputPoints (sources : List DaeSource) (input : DaeInput) : List V3 :=
  if input.semantic = DaeSemantic.position then
    sources.flatMap (daeSourcePoints (stripHash input.source))
  else []

/-- The primitive loop of the DAE walk (src/lib.rs lines 345–354): triangles
primitives with a payload contribute their indices grouped in exact threes. -/
def daePrimTris : DaePrimitive → List Tri
  | DaePrimitive.triangles t =>
    match t.prim with
    | some l => chunksExact3 l
    | none => []
  | DaePrimitive.otherPrim => []

/-- One geometry's contribution to the collected mesh list (src/lib.rs lines
313–357): a geometry pushes one raw sub-mesh exactly when it is a mesh with a
`vertices` element — even when that sub-mesh ends up empty. -/
def daeGeometryMeshes (g : DaeGeometry) : List SubMesh :=
  match g.element with
  | DaeGeometryElement.mesh m =>
    match m.vertices with
    | some verts =>
      [(verts.inputs.flatMap (daeInputPoints m.sources), m.elements.flatMap daePrimTris)]
    | none => []
  | DaeGeometryElement.otherGeom => []

/-- The full collection pass of `load_trimesh_from_dae` (src/lib.rs lines
308–360) over the document library. -/
def collectDaeMeshes (doc : DaeDocument) : List SubMesh :=
  doc.library.flatMap (fun le =>
    match le with
    | DaeLibraryElement.geometries items => items.flatMap daeGeometryMeshes
    | DaeLibraryElement.otherLib => [])

/-- `load_trimesh_from_dae` (src/lib.rs lines 296–367) on a parsed document:
error when the collected list is empty, otherwise the merged meshes. -/
def load_trimesh_from_dae (doc : DaeDocument) : Except Msg SubMesh :=
  if collectDaeMeshes doc = [] then
    .error (chars ("The file contains no mesh"))
  else
    .ok (merge_meshes (collectDaeMeshes doc))

/-- Whether some geometry of the document is a mesh carrying a `vertices`
element — the exact condition under which the DAE walk pushes a raw sub-mesh
(possibly an empty one). -/
def someGeometryHasVerticesElem (doc : DaeDocument) : Bool :=
  doc.library.any (fun le =>
    match le with
    | DaeLibraryElement.geometries items =>
      items.any (fun g =>
        match g.element with
        | DaeGeometryElement.mesh m => m.vertices.isSome
        | DaeGeometryElement.otherGeom => false)
    | DaeLibraryElement.otherLib => false)

/-- A face record holding one `vertex_indices` list property. -/
def mkFace (p : Property) : PlyRecord :=
  [(("vertex_indices" : String), p)]

/-- A PLY payload with a single vertex record but a face referencing the
out-of-range indices 1 and 2: the loader accepts it. -/
def plyDocBad : PlyPayload :=
  [(("vertex" : String), [[(("x" : String), Property.float 0),
                           (("y" : String), Property.float 0),
                           (("z" : String), Property.float 0)]]),
   (("face" : String), [mkFace (Property.listUInt [0, 1, 2])])]

/-- A well-formed PLY payload: three vertex records and one face (0,1,2). -/
def plyDocGood : PlyPayload :=
  [(("vertex" : String), [[(("x" : String), Property.float 0),
                           (("y" : String), Property.float 0),
                           (("z" : String), Property.float 0)],
                          [(("x" : String), Property.float 1),
                           (("y" : String), Property.float 0),
                           (("z" : String), Property.float 0)],
                          [(("x" : String), Property.float 0),
                           (("y" : String), Property.float 1),
                           (("z" : String), Property.float 0)]]),
   (("face" : String), [mkFace (Property.listUInt [0, 1, 2])])]

/-- A DAE document whose single geometry is a mesh with an empty `vertices`
element and no sources or primitives: it contributes an empty raw sub-mesh. -/
def daeDocEmptyVerts : DaeDocument :=
  ⟨[DaeLibraryElement.geometries [⟨DaeGeometryElement.mesh ⟨some ⟨[]⟩, [], []⟩⟩]]⟩

/-- A DAE document with one geometry of one vertex and one (degenerate)
triangle, used to instantiate the single-geometry no-merge behaviour. -/
def daeDocSingle : DaeDocument :=
  ⟨[DaeLibraryElement.geometries
      [⟨DaeGeometryElement.mesh
          ⟨some ⟨[⟨DaeSemantic.position, ("#src").data⟩]⟩,
           [⟨some (("src").data), some (DaeArrayElement.float [1, 2, 3])⟩],
           [DaePrimitive.triangles ⟨some [0, 0, 0]⟩]⟩⟩]]⟩

/-- First sub-mesh of the merge example: 3 vertices, 1 triangle (0,1,2). -/
def mergeEx1 : SubMesh :=
  ([((0 : ℚ), (0 : ℚ), (0 : ℚ)), ((1 : ℚ), (0 : ℚ), (0 : ℚ)), ((0 : ℚ), (1 : ℚ), (0 : ℚ))],
   [(0, 1, 2)])

/-- Second sub-mesh of the merge example: 3 vertices, 1 triangle (0,1,2). -/
def mergeEx2 : SubMesh :=
  ([((1 : ℚ), (1 : ℚ), (0 : ℚ)), ((2 : ℚ), (1 : ℚ), (0 : ℚ)), ((1 : ℚ), (2 : ℚ), (0 : ℚ))],
   [(0, 1, 2)])

/-- A vertex buffer of `2^32` identical vertices. -/
def hugeVerts : List V3 :=
  List.replicate 4294967296 ((0 : ℚ), (0 : ℚ), (0 : ℚ))

/-- Two sub-meshes whose first holds `2^32` vertices (and no triangles) and
whose second holds 3 vertices and the triangle (0,1,2): `merge_meshes` runs its
loop here, the `u32` accumulator wraps to 0 after the first sub-mesh, and the
second sub-mesh's triangle is left un-rebased. -/
def hugeMeshPair : List SubMesh :=
  [(hugeVerts, []),
   ([((0 : ℚ), (0 : ℚ), (0 : ℚ)), ((0 : ℚ), (0 : ℚ), (0 : ℚ)),
     ((0 : ℚ), (0 : ℚ), (0 : ℚ))], [(0, 1, 2)])]

theorem u32_add_mod_left (a b : ℕ) : u32add (u32 a) b = u32add a b := by
  simp [u32add, u32, Nat.mod_add_mod]

theorem u32_add_mod_right (a b : ℕ) : u32add a (u32 b) = u32add a b := by
  simp [u32add, u32, Nat.add_mod_mod]

theorem u32_of_lt {n : ℕ} (h : n < 4294967296) : u32 n = n := Nat.mod_eq_of_lt h

theorem addOffTri_zero {t : Tri} (h : t.1 < 4294967296 ∧ t.2.1 < 4294967296 ∧
    t.2.2 < 4294967296) : addOffTri 0 t = t := by
  obtain ⟨t1, t2, t3⟩ := t
  obtain ⟨h1, h2, h3⟩ := h
  simp only [addOffTri, u32add, u32, Nat.add_zero]
  rw [Nat.mod_eq_of_lt h1, Nat.mod_eq_of_lt h2, Nat.mod_eq_of_lt h3]

theorem mergeLoop_spec (ms : List SubMesh) :
    ∀ (vacc : List V3) (iacc : List Tri) (total : ℕ),
      mergeLoop ms vacc iacc (u32 total) =
        (vacc ++ (ms.map Prod.fst).flatten, iacc ++ specMergeIdx ms total) := by
  induction ms with
  | nil => intro vacc iacc total; simp [mergeLoop, specMergeIdx]
  | cons m rest ih =>
    intro vacc iacc total
    obtain ⟨vs, is⟩ := m
    have hoff : u32add (u32 total) (u32 vs.length) = u32 (total + vs.length) := by
      simp [u32add, u32, Nat.mod_add_mod, Nat.add_mod_mod]
    have hmap : (fun t : Tri => (u32add t.1 (u32 total), u32add t.2.1 (u32 total),
        u32add t.2.2 (u32 total))) = addOffTri total := by
      funext t
      simp [addOffTri, u32_add_mod_right]
    simp only [mergeLoop, hoff, hmap, ih, specMergeIdx, List.map_cons, List.flatten,
      List.append_assoc]

theorem merge_eq_wrapped_of_many (m1 m2 : SubMesh) (rest : List SubMesh) :
    merge_meshes (m1 :: m2 :: rest) =
      (((m1 :: m2 :: rest).map Prod.fst).flatten,
        specMergeIdx (m1 :: m2 :: rest) 0) := by
  have h0 : (0 : ℕ) = u32 0 := by simp [u32]
  show mergeLoop (m1 :: m2 :: rest) [] [] 0 = _
  conv_lhs => rw [h0]
  rw [mergeLoop_spec]
  simp

theorem specMergeIdx_exact :
    ∀ (ms : List SubMesh) (total : ℕ),
      (∀ m ∈ ms, ∀ t ∈ m.2,
        t.1 < m.1.length ∧ t.2.1 < m.1.length ∧ t.2.2 < m.1.length) →
      total + totalVerts ms < 4294967296 →
      specMergeIdx ms total = specMergeIdxExact ms total
  | [], total => by
    intro _ _
    rfl
  | (vs, is) :: rest, total => by
    intro hin htot
    have hlen : totalVerts ((vs, is) :: rest) = vs.length + totalVerts rest := by
      unfold totalVerts
      simp
    unfold specMergeIdx specMergeIdxExact
    congr 1
    · apply List.map_congr_left
      intro t ht
      obtain ⟨h1, h2, h3⟩ := hin (vs, is) (by simp) t ht
      have h1v : t.1 < vs.length := h1
      have h2v : t.2.1 < vs.length := h2
      have h3v : t.2.2 < vs.length := h3
      show (u32add t.1 total, u32add t.2.1 total, u32add t.2.2 total) = _
      unfold u32add
      rw [u32_of_lt (by omega), u32_of_lt (by omega), u32_of_lt (by omega)]
    · exact specMergeIdx_exact rest (total + vs.length)
        (fun g hg => hin g (List.mem_cons_of_mem (vs, is) hg)) (by omega)

/-- Claim C2 (amended): `merge_meshes` concatenates the sub-mesh vertex
sequences in order and adds the running total of earlier vertices to each index
in wrapping `u32` arithmetic; whenever every sub-mesh's indices address its own
vertex buffer and the total vertex count stays below `2^32` — the only inputs a
`u32` mesh can represent faithfully — this coincides with the spec's exact
running-total increase. In particular, merging two sub-meshes of 3 vertices and
one triangle (0,1,2) each yields 6 vertices and the triangles (0,1,2), (3,4,5). -/
theorem merge_meshes_follows_spec :
    (∀ ms : List SubMesh,
      (∀ m ∈ ms, ∀ t ∈ m.2,
        t.1 < m.1.length ∧ t.2.1 < m.1.length ∧ t.2.2 < m.1.length) →
      totalVerts ms < 4294967296 →
      merge_meshes ms = specMergeExact ms)
    ∧ merge_meshes [mergeEx1, mergeEx2] =
        (mergeEx1.1 ++ mergeEx2.1, [(0, 1, 2), (3, 4, 5)])
    ∧ (mergeEx1.1 ++ mergeEx2.1).length = 6 := by
  refine ⟨?_, by decide, by decide⟩
  intro ms hin htot
  match ms with
  | [] => rfl
  | [m] =>
    obtain ⟨vs, is⟩ := m
    show (vs, is) = specMergeExact [(vs, is)]
    have hid : ∀ t : Tri, ((t.1 + 0 : ℕ), (t.2.1 + 0 : ℕ), (t.2.2 + 0 : ℕ)) = t :=
      fun t => by simp
    have hmap : is.map (fun t : Tri => (t.1 + 0, t.2.1 + 0, t.2.2 + 0)) = is := by
      rw [List.map_congr_left (fun t _ => hid t)]
      simp
    simp [specMergeExact, specMergeIdxExact, hmap]
  | m1 :: m2 :: rest =>
    rw [merge_eq_wrapped_of_many m1 m2 rest]
    unfold specMergeExact
    congr 1
    exact specMergeIdx_exact _ 0 hin (by simpa using htot)

/-- Witness for C2 (amended) at a concrete input. -/
theorem merge_meshes_follows_spec_witness :
    merge_meshes [mergeEx1] = specMergeExact [mergeEx1] :=
  merge_meshes_follows_spec.1 [mergeEx1] (by decide) (by decide)

theorem hugeVerts_length : hugeVerts.length = 4294967296 := by
  unfold hugeVerts
  exact List.length_replicate _ _

theorem mergeLoop_cons (vs : List V3) (is : List Tri) (rest : List SubMesh)
    (vacc : List V3) (iacc : List Tri) (off : ℕ) :
    mergeLoop ((vs, is) :: rest) vacc iacc off =
      mergeLoop rest (vacc ++ vs)
        (iacc ++ is.map (fun t => (u32add t.1 off, u32add t.2.1 off, u32add t.2.2 off)))
        (u32add off (u32 vs.length)) := rfl

theorem mergeLoop_nil (vacc : List V3) (iacc : List Tri) (off : ℕ) :
    mergeLoop [] vacc iacc off = (vacc, iacc) := rfl

theorem specMergeIdxExact_cons (vs : List V3) (is : List Tri)
    (rest : List SubMesh) (total : ℕ) :
    specMergeIdxExact ((vs, is) :: rest) total =
      is.map (fun t => (t.1 + total, t.2.1 + total, t.2.2 + total))
        ++ specMergeIdxExact rest (total + vs.length) := rfl

theorem specMergeIdxExact_nil (total : ℕ) : specMergeIdxExact [] total = [] := rfl

theorem mergeLoopOffset_cons (vs : List V3) (is : List Tri) (rest : List SubMesh)
    (off : ℕ) :
    mergeLoopOffset ((vs, is) :: rest) off =
      mergeLoopOffset rest (u32add off (u32 vs.length)) := rfl

theorem mergeLoopOffset_nil (off : ℕ) : mergeLoopOffset [] off = off := rfl

theorem hugeMerge_as_loop :
    merge_meshes hugeMeshPair = mergeLoop hugeMeshPair [] [] 0 := rfl

theorem hugeLoop_snd : (mergeLoop hugeMeshPair [] [] 0).2 = [(0, 1, 2)] := by
  show (mergeLoop ((hugeVerts, []) :: [([((0 : ℚ), (0 : ℚ), (0 : ℚ)),
    ((0 : ℚ), (0 : ℚ), (0 : ℚ)), ((0 : ℚ), (0 : ℚ), (0 : ℚ))], [(0, 1, 2)])]) [] [] 0).2
    = [(0, 1, 2)]
  rw [mergeLoop_cons, hugeVerts_length, mergeLoop_cons, mergeLoop_nil]
  simp only [List.map_cons, List.map_nil, List.nil_append, List.append_nil]
  norm_num [u32add, u32]

theorem hugeMerge_snd : (merge_meshes hugeMeshPair).2 = [(0, 1, 2)] := by
  rw [hugeMerge_as_loop]
  exact hugeLoop_snd

theorem hugeSpecExact_snd :
    specMergeIdxExact hugeMeshPair 0 = [(4294967296, 4294967297, 4294967298)] := by
  show specMergeIdxExact ((hugeVerts, []) :: [([((0 : ℚ), (0 : ℚ), (0 : ℚ)),
    ((0 : ℚ), (0 : ℚ), (0 : ℚ)), ((0 : ℚ), (0 : ℚ), (0 : ℚ))], [(0, 1, 2)])]) 0
    = [(4294967296, 4294967297, 4294967298)]
  rw [specMergeIdxExact_cons, hugeVerts_length, specMergeIdxExact_cons,
    specMergeIdxExact_nil]
  norm_num

theorem hugeOffset_end : mergeLoopOffset hugeMeshPair 0 = 3 := by
  show mergeLoopOffset ((hugeVerts, []) :: [([((0 : ℚ), (0 : ℚ), (0 : ℚ)),
    ((0 : ℚ), (0 : ℚ), (0 : ℚ)), ((0 : ℚ), (0 : ℚ), (0 : ℚ))], [(0, 1, 2)])]) 0 = 3
  rw [mergeLoopOffset_cons, hugeVerts_length, mergeLoopOffset_cons, mergeLoopOffset_nil]
  norm_num [u32add, u32]

theorem hugeTotal : totalVerts hugeMeshPair = 4294967299 := by
  simp only [totalVerts, hugeMeshPair, List.map_cons, List.map_nil, List.sum_cons,
    List.sum_nil, hugeVerts_length, List.length_cons, List.length_nil]
  norm_num

/-- Counterexample to C2 as stated: on two sub-meshes whose first holds `2^32`
vertices, the code leaves the second sub-mesh's triangle (0,1,2) unchanged —
the `u32` offset wrapped to 0 — while the contractual exact increase by the
running total `2^32` would give (4294967296, 4294967297, 4294967298). -/
theorem merge_not_exact_on_huge :
    (merge_meshes hugeMeshPair).2 = [(0, 1, 2)]
    ∧ (specMergeExact hugeMeshPair).2 = [(4294967296, 4294967297, 4294967298)]
    ∧ merge_meshes hugeMeshPair ≠ specMergeExact hugeMeshPair := by
  have h2 : (specMergeExact hugeMeshPair).2 = [(4294967296, 4294967297, 4294967298)] := by
    show specMergeIdxExact hugeMeshPair 0 = _
    exact hugeSpecExact_snd
  refine ⟨hugeMerge_snd, h2, ?_⟩
  intro h
  have hs := hugeMerge_snd
  rw [congrArg Prod.snd h, h2] at hs
  exact absurd hs (by decide)

/-- Claim C6: merging a list holding exactly one raw sub-mesh returns that
sub-mesh's vertices and indices unchanged (the very same values in the same
order), and the DAE loader therefore returns a single collected geometry
unmerged. -/
theorem merge_single_mesh_identity :
    (∀ m : SubMesh, merge_meshes [m] = m)
    ∧ (∀ (doc : DaeDocument) (m : SubMesh), collectDaeMeshes doc = [m] →
        load_trimesh_from_dae doc = .ok m) := by
  refine ⟨fun m => rfl, ?_⟩
  intro doc m h
  unfold load_trimesh_from_dae
  rw [h]
  simp [merge_meshes]

/-- Witness for C6: a DAE document with a single one-vertex geometry is
returned exactly as collected. -/
theorem merge_single_mesh_identity_witness :
    load_trimesh_from_dae daeDocSingle = .ok ([((1 : ℚ), (2 : ℚ), (3 : ℚ))], [(0, 0, 0)]) :=
  merge_single_mesh_identity.2 daeDocSingle _ (by decide)

theorem mergeLoopOffset_u32 :
    ∀ (ms : List SubMesh) (t : ℕ),
      mergeLoopOffset ms (u32 t) = u32 (t + totalVerts ms)
  | [], t => by
    simp [mergeLoopOffset, totalVerts]
  | (vs, is) :: rest, t => by
    unfold mergeLoopOffset
    have step : u32add (u32 t) (u32 vs.length) = u32 (t + vs.length) := by
      simp [u32add, u32, Nat.mod_add_mod, Nat.add_mod_mod]
    rw [step, mergeLoopOffset_u32 rest (t + vs.length)]
    congr 1
    unfold totalVerts
    simp
    ring

/-- Claim C8 (amended): the running vertex-count accumulator of the merge loop
(which `merge_meshes` executes on every input other than a single sub-mesh) is
a 32-bit `u32` fed through an `as u32` cast; it equals the exact running total
— no silent wraparound — precisely when the total vertex count of the input
stays below `2^32`. -/
theorem vertexOffset_exact_iff (ms : List SubMesh) :
    mergeLoopOffset ms 0 = totalVerts ms ↔ totalVerts ms < 4294967296 := by
  have h0 : (0 : ℕ) = u32 0 := by simp [u32]
  have key : mergeLoopOffset ms 0 = u32 (totalVerts ms) := by
    rw [h0, mergeLoopOffset_u32, Nat.zero_add]
  rw [key]
  unfold u32
  constructor
  · intro h
    have := Nat.mod_lt (totalVerts ms) (show 0 < 4294967296 by norm_num)
    omega
  · exact Nat.mod_eq_of_lt

/-- Counterexample to C8 as stated: on two sub-meshes whose first holds `2^32`
vertices, `merge_meshes` runs its loop, where the accumulator silently wraps —
it ends at 3 instead of the true total `2^32 + 3`, and, having wrapped to 0
after the first sub-mesh, it leaves the second sub-mesh's triangle (0,1,2)
un-rebased in the merged output. -/
theorem vertexOffset_wraps :
    (merge_meshes hugeMeshPair).2 = [(0, 1, 2)]
    ∧ mergeLoopOffset hugeMeshPair 0 = 3
    ∧ totalVerts hugeMeshPair = 4294967299
    ∧ mergeLoopOffset hugeMeshPair 0 ≠ totalVerts hugeMeshPair := by
  refine ⟨hugeMerge_snd, hugeOffset_end, hugeTotal, ?_⟩
  rw [hugeOffset_end, hugeTotal]
  norm_num

/-- Claim C9: the scaling step multiplies every vertex's three coordinates by
the scalar exactly when `|scale - 1|` exceeds `f32::EPSILON`, and otherwise
leaves the vertex buffer exactly unchanged. -/
theorem applyScale_spec (scale : ℚ) (vertices : List V3) :
    (|scale - 1| > f32EPSILON →
      applyScale scale vertices =
        vertices.map (fun v => (v.1 * scale, v.2.1 * scale, v.2.2 * scale)))
    ∧ (¬ |scale - 1| > f32EPSILON → applyScale scale vertices = vertices) := by
  unfold applyScale
  constructor
  · intro h
    rw [if_pos h]
  · intro h
    rw [if_neg h]

/-- Witness for C9: scaling by 2 doubles every coordinate; scaling by 1 leaves
the buffer untouched. -/
theorem applyScale_spec_witness :
    applyScale 2 [((1 : ℚ), (2 : ℚ), (3 : ℚ))] = [((2 : ℚ), (4 : ℚ), (6 : ℚ))]
    ∧ applyScale 1 [((1 : ℚ), (2 : ℚ), (3 : ℚ))] = [((1 : ℚ), (2 : ℚ), (3 : ℚ))] := by
  have h1 := (applyScale_spec 2 [((1 : ℚ), (2 : ℚ), (3 : ℚ))]).1
    (by norm_num [f32EPSILON])
  have h2 := (applyScale_spec 1 [((1 : ℚ), (2 : ℚ), (3 : ℚ))]).2
    (by norm_num [f32EPSILON])
  rw [h1, h2]
  norm_num

theorem chunksExact3_length {α : Type} : ∀ l : List α,
    (chunksExact3 l).length = l.length / 3
  | [] => by simp [chunksExact3]
  | [a] => by simp [chunksExact3]
  | [a, b] => by simp [chunksExact3]
  | a :: b :: c :: rest => by
    have ih := chunksExact3_length rest
    simp only [chunksExact3, List.length_cons, ih]
    omega

theorem chunksExact3_take {α : Type} : ∀ l : List α,
    chunksExact3 (l.take (3 * (l.length / 3))) = chunksExact3 l
  | [] => by simp [chunksExact3]
  | [a] => by simp [chunksExact3]
  | [a, b] => by simp [chunksExact3]
  | a :: b :: c :: rest => by
    have ih := chunksExact3_take rest
    have h3 : 3 * ((a :: b :: c :: rest).length / 3) = 3 * (rest.length / 3) + 3 := by
      simp only [List.length_cons]
      omega
    rw [h3]
    rw [show 3 * (rest.length / 3) + 3 = (3 * (rest.length / 3) + 2) + 1 from rfl,
      List.take_succ_cons,
      show 3 * (rest.length / 3) + 2 = (3 * (rest.length / 3) + 1) + 1 from rfl,
      List.take_succ_cons, List.take_succ_cons]
    simp only [chunksExact3, ih]

/-- Claim C10: the OBJ extractor groups flat position and index arrays into
exact chunks of 3 — the 1–2 trailing leftover values of an array whose length
is not a multiple of 3 are silently discarded (truncating the arrays to the
grouped prefix changes nothing), no error is produced (the extractor is total),
and the produced vertex/triangle counts are the floor-divided array lengths. -/
theorem obj_leftovers_discarded (models : List ObjMesh) :
    load_trimesh_from_obj (models.map truncObjMesh) = load_trimesh_from_obj models
    ∧ (load_trimesh_from_obj models).1.length =
        (models.map (fun m => m.positions.length / 3)).sum
    ∧ (load_trimesh_from_obj models).2.length =
        (models.map (fun m => m.indices.length / 3)).sum := by
  refine ⟨?_, ?_, ?_⟩
  · unfold load_trimesh_from_obj
    rw [List.flatMap_map, List.flatMap_map]
    refine congrArg₂ Prod.mk ?_ ?_
    · exact List.flatMap_congr (fun m _ => chunksExact3_take m.positions)
    · exact List.flatMap_congr (fun m _ => chunksExact3_take m.indices)
  · unfold load_trimesh_from_obj
    rw [List.length_flatMap]
    exact congrArg List.sum
      (List.map_congr_left (fun m _ => chunksExact3_length m.positions))
  · unfold load_trimesh_from_obj
    rw [List.length_flatMap]
    exact congrArg List.sum
      (List.map_congr_left (fun m _ => chunksExact3_length m.indices))

/-- Claim C5: a `vertex_indices` list shorter than 3 elements is rejected with
an `IndexRangeError` whose message names the face index (the extractor is a
total function — no panic — and never returns a truncated triangle); with 3 or
more elements exactly the first three are used and the rest are ignored. -/
theorem extract_indices_first_three {α : Type} (tryInto : α → Option ℕ)
    (l : List α) (i : ℕ) :
    (l.length < 3 → extract_indices tryInto l i = .error (insuffMsg i)
      ∧ (toString i).data <:+ insuffMsg i)
    ∧ (3 ≤ l.length →
      extract_indices tryInto l i = extract_indices tryInto (l.take 3) i) := by
  constructor
  · intro h
    refine ⟨?_, chars ("Insufficient indices for a triangle in face "), rfl⟩
    unfold extract_indices
    rw [if_pos h]
  · intro h
    rcases l with _ | ⟨a, _ | ⟨b, _ | ⟨c, rest⟩⟩⟩
    · simp at h
    · simp at h
    · simp at h
    · rfl

/-- Witness for C5 at concrete inputs. -/
theorem extract_indices_first_three_witness :
    extract_indices tryIntoU32ofNat [0, 1] 7 = .error (insuffMsg 7)
    ∧ extract_indices tryIntoU32ofNat [0, 1, 2, 9] 0 =
        extract_indices tryIntoU32ofNat [0, 1, 2] 0 := by
  refine ⟨((extract_indices_first_three tryIntoU32ofNat [0, 1] 7).1 (by decide)).1, ?_⟩
  have h := (extract_indices_first_three tryIntoU32ofNat [0, 1, 2, 9] 0).2 (by decide)
  rw [show List.take 3 [0, 1, 2, 9] = [0, 1, 2] from rfl] at h
  exact h

theorem mkFace_lookup (p : Property) :
    (mkFace p).lookup ("vertex_indices") = some p := by
  simp [mkFace, List.lookup]

theorem extract_indices_cons {α : Type} (tryInto : α → Option ℕ) (a b c : α)
    (rest : List α) (i : ℕ) (x y z : ℕ) (hx : tryInto a = some x)
    (hy : tryInto b = some y) (hz : tryInto c = some z) :
    extract_indices tryInto (a :: b :: c :: rest) i = .ok (x, y, z) := by
  unfold extract_indices
  rw [if_neg (by simp only [List.length_cons]; omega)]
  simp only [hx, hy, hz]

/-- Claim C4: the four physical list encodings of the same (everywhere
representable) face index values — unsigned 32-bit, signed 32-bit, unsigned
16-bit, signed 16-bit — all coerce through the PLY face match to the identical
canonical triangle. -/
theorem ply_four_encodings_equal (vals : List ℤ) (i : ℕ) (hlen : 3 ≤ vals.length)
    (hv : ∀ v ∈ vals, 0 ≤ v ∧ v < 32768) :
    ∃ t : Tri,
      faceTri (mkFace (Property.listUInt (vals.map Int.toNat))) i = .ok t
      ∧ faceTri (mkFace (Property.listInt vals)) i = .ok t
      ∧ faceTri (mkFace (Property.listUShort (vals.map Int.toNat))) i = .ok t
      ∧ faceTri (mkFace (Property.listShort vals)) i = .ok t := by
  rcases vals with _ | ⟨a, _ | ⟨b, _ | ⟨c, rest⟩⟩⟩
  · simp at hlen
  · simp at hlen
  · simp at hlen
  obtain ⟨ha0, _⟩ := hv a (by simp)
  obtain ⟨hb0, _⟩ := hv b (by simp)
  obtain ⟨hc0, _⟩ := hv c (by simp)
  refine ⟨(a.toNat, b.toNat, c.toNat), ?_, ?_, ?_, ?_⟩ <;>
    simp only [faceTri, mkFace_lookup, List.map_cons]
  · exact extract_indices_cons _ _ _ _ _ _ _ _ _ rfl rfl rfl
  · exact extract_indices_cons _ _ _ _ _ _ _ _ _
      (by simp [tryIntoU32ofInt, ha0]) (by simp [tryIntoU32ofInt, hb0])
      (by simp [tryIntoU32ofInt, hc0])
  · exact extract_indices_cons _ _ _ _ _ _ _ _ _ rfl rfl rfl
  · exact extract_indices_cons _ _ _ _ _ _ _ _ _
      (by simp [tryIntoU32ofInt, ha0]) (by simp [tryIntoU32ofInt, hb0])
      (by simp [tryIntoU32ofInt, hc0])

/-- Witness for C4: the values 0, 1, 2 through two of the encodings. -/
theorem ply_four_encodings_equal_witness :
    faceTri (mkFace (Property.listUInt [0, 1, 2])) 0 =
      faceTri (mkFace (Property.listShort [0, 1, 2])) 0 := by
  obtain ⟨t, h1, _, _, h4⟩ :=
    ply_four_encodings_equal [0, 1, 2] 0 (by decide) (by decide)
  rw [show Property.listUInt (List.map Int.toNat [0, 1, 2]) =
    Property.listUInt [0, 1, 2] from rfl] at h1
  rw [h1, h4]

theorem takeWhile_reverse_suffix (q : Char → Bool) (l : List Char) :
    (l.reverse.takeWhile q).reverse <:+ l := by
  have h1 : l.reverse.takeWhile q <+: l.reverse := List.takeWhile_prefix q
  have h2 : (l.reverse.takeWhile q).reverse <:+ l.reverse.reverse := by
    rw [List.reverse_suffix]
    exact h1
  rwa [List.reverse_reverse] at h2

theorem fileNameOf_suffix (p : List Char) : fileNameOf p <:+ p :=
  takeWhile_reverse_suffix _ p

theorem extensionOf_suffix {p e : List Char} (h : extensionOf p = some e) :
    e <:+ p := by
  unfold extensionOf at h
  split at h
  · exact absurd h (by simp)
  split at h
  · exact absurd h (by simp)
  have he : e = (extTail p).reverse := by
    injection h with h
    exact h.symm
  subst he
  exact (takeWhile_reverse_suffix _ (fileNameOf p)).trans (fileNameOf_suffix p)

/-- Claim C3: a path whose extension (taken case-insensitively) is not one of
`stl`, `ply`, `obj`, `dae` — or that has no extension at all — is rejected by
the dispatcher with the unsupported-format error, and the offending extension
appears verbatim in the error message (which embeds the whole path). -/
theorem dispatch_unsupported_ext (p : List Char)
    (h : ((extensionOf p).map (List.map Char.toLower)) ∉
      [some (("stl").data), some (("ply").data), some (("obj").data),
       some (("dae").data)]) :
    dispatchFormat p = .error (unsupportedMsg p)
    ∧ ∀ e, extensionOf p = some e → e <:+: unsupportedMsg p := by
  constructor
  · unfold dispatchFormat
    cases hx : extensionOf p with
    | none => rfl
    | some e =>
      rw [hx] at h
      simp only [Option.map_some', List.mem_cons, List.mem_singleton] at h
      push_neg at h
      obtain ⟨h1, h2, h3, h4⟩ := h
      simp only [Option.map_some']
      rw [if_neg (by simpa using h1), if_neg (by simpa using h2),
        if_neg (by simpa using h3), if_neg (by simpa using h4)]
  · intro e he
    obtain ⟨t, ht⟩ := extensionOf_suffix he
    refine ⟨chars ("Unsupported file extension for \x27") ++ t,
      chars ("\x27, only .stl, .ply, and .obj are supported."), ?_⟩
    rw [unsupportedMsg, ← ht]
    simp [List.append_assoc]

/-- Witness for C3: the path `model.xyz` is rejected and the message contains
`xyz`. -/
theorem dispatch_unsupported_ext_witness :
    dispatchFormat (("model.xyz").data) = .error (unsupportedMsg (("model.xyz").data))
    ∧ (("xyz").data) <:+: unsupportedMsg (("model.xyz").data) := by
  have h := dispatch_unsupported_ext (("model.xyz").data) (by decide)
  exact ⟨h.1, h.2 (("xyz").data) (by decide)⟩

theorem daeGeometryMeshes_nil_iff (g : DaeGeometry) :
    daeGeometryMeshes g = [] ↔
      (match g.element with
        | DaeGeometryElement.mesh m => m.vertices.isSome
        | DaeGeometryElement.otherGeom => false) = false := by
  obtain ⟨el⟩ := g
  cases el with
  | mesh m =>
    obtain ⟨vtx, srcs, els⟩ := m
    cases vtx <;> simp [daeGeometryMeshes]
  | otherGeom => simp [daeGeometryMeshes]

theorem collectDaeMeshes_nil_iff (doc : DaeDocument) :
    collectDaeMeshes doc = [] ↔ someGeometryHasVerticesElem doc = false := by
  unfold collectDaeMeshes someGeometryHasVerticesElem
  rw [List.flatMap_eq_nil_iff, List.any_eq_false]
  constructor
  · intro h le hle
    have hh := h le hle
    cases le with
    | geometries items =>
      simp only at hh ⊢
      rw [List.flatMap_eq_nil_iff] at hh
      rw [List.any_eq_true]
      rintro ⟨g, hg, hgv⟩
      have := (daeGeometryMeshes_nil_iff g).mp (hh g hg)
      rw [this] at hgv
      cases hgv
    | otherLib => simp
  · intro h le hle
    have hh := h le hle
    cases le with
    | geometries items =>
      simp only at hh ⊢
      rw [List.any_eq_true] at hh
      rw [List.flatMap_eq_nil_iff]
      intro g hg
      refine (daeGeometryMeshes_nil_iff g).mpr ?_
      cases hx : (match g.element with
        | DaeGeometryElement.mesh m => m.vertices.isSome
        | DaeGeometryElement.otherGeom => false) with
      | false => rfl
      | true => exact absurd ⟨g, hg, hx⟩ hh
    | otherLib => simp [daeGeometryMeshes]

/-- Claim C7 (amended): the DAE loader fails with the empty-mesh error exactly
when no geometry of the document is a mesh carrying a `vertices` element; as
soon as one geometry has a `vertices` element a mesh is returned — even when
that geometry contributed no vertices and no triangles at all. -/
theorem dae_empty_error_iff (doc : DaeDocument) :
    load_trimesh_from_dae doc = .error (chars ("The file contains no mesh"))
      ↔ someGeometryHasVerticesElem doc = false := by
  rw [← collectDaeMeshes_nil_iff]
  unfold load_trimesh_from_dae
  constructor
  · intro h
    by_contra hne
    rw [if_neg hne] at h
    cases h
  · intro h
    rw [if_pos h]

/-- Counterexample to C7 as stated: a document whose single geometry has an
empty `vertices` element (no inputs, no sources, no primitives) contributes no
mesh content at all, yet loading succeeds with an empty mesh instead of
failing with the empty-mesh error. -/
theorem dae_no_content_still_loads :
    load_trimesh_from_dae daeDocEmptyVerts = .ok ([], []) := rfl

theorem extractVertices_length :
    ∀ (vrecs : List PlyRecord) (vs : List V3),
      extractVertices vrecs = .ok vs → vs.length = vrecs.length
  | [], vs => by
    intro h
    injection h with h
    rw [← h]
    rfl
  | v :: vrecs, vs => by
    intro h
    unfold extractVertices at h
    rcases hgx : getCoord v ("x") with e | x <;> rw [hgx] at h
    · cases h
    rcases hgy : getCoord v ("y") with e | y <;> rw [hgy] at h
    · cases h
    rcases hgz : getCoord v ("z") with e | z <;> rw [hgz] at h
    · cases h
    rcases hr : extractVertices vrecs with e | rest <;> rw [hr] at h
    · cases h
    injection h with h
    rw [← h, List.length_cons, List.length_cons,
      extractVertices_length vrecs rest hr]

theorem extract_indices_components {α : Type} (tryInto : α → Option ℕ)
    (l : List α) (i : ℕ) (t : Tri) (h : extract_indices tryInto l i = .ok t) :
    (∃ a ∈ l, tryInto a = some t.1) ∧ (∃ b ∈ l, tryInto b = some t.2.1)
      ∧ (∃ c ∈ l, tryInto c = some t.2.2) := by
  unfold extract_indices at h
  split at h
  · cases h
  rcases l with _ | ⟨a, _ | ⟨b, _ | ⟨c, rest⟩⟩⟩
  · cases h
  · cases h
  · cases h
  dsimp only at h
  rcases hca : tryInto a with _ | x <;> rw [hca] at h
  · cases h
  rcases hcb : tryInto b with _ | y <;> rw [hcb] at h
  · cases h
  rcases hcc : tryInto c with _ | z <;> rw [hcc] at h
  · cases h
  injection h with h
  rw [← h]
  exact ⟨⟨a, by simp, hca⟩, ⟨b, by simp, hcb⟩, ⟨c, by simp, hcc⟩⟩

theorem tryIntoU32ofNat_lt {n v x : ℕ} (h : tryIntoU32ofNat v = some x)
    (hb : v < n) : x < n := by
  injection h with h
  rw [← h]
  exact hb

theorem tryIntoU32ofInt_lt {n : ℕ} {v : ℤ} {x : ℕ} (h : tryIntoU32ofInt v = some x)
    (hb : v.toNat < n) : x < n := by
  unfold tryIntoU32ofInt at h
  split at h
  · injection h with h
    rw [← h]
    exact hb
  · cases h

theorem faceTri_lt (face : PlyRecord) (i : ℕ) (t : Tri) (n : ℕ)
    (h : faceTri face i = .ok t) (hb : faceValsBelow face n) :
    t.1 < n ∧ t.2.1 < n ∧ t.2.2 < n := by
  unfold faceTri at h
  unfold faceValsBelow at hb
  rcases hlk : face.lookup ("vertex_indices") with _ | p <;> rw [hlk] at h hb
  · cases h
  cases p with
  | listUInt l =>
    simp only [propValsBelow] at hb
    obtain ⟨⟨a, ha, hca⟩, ⟨b, hbm, hcb⟩, ⟨c, hc, hcc⟩⟩ :=
      extract_indices_components _ _ _ _ h
    exact ⟨tryIntoU32ofNat_lt hca (hb a ha), tryIntoU32ofNat_lt hcb (hb b hbm),
      tryIntoU32ofNat_lt hcc (hb c hc)⟩
  | listInt l =>
    simp only [propValsBelow] at hb
    obtain ⟨⟨a, ha, hca⟩, ⟨b, hbm, hcb⟩, ⟨c, hc, hcc⟩⟩ :=
      extract_indices_components _ _ _ _ h
    exact ⟨tryIntoU32ofInt_lt hca (hb a ha), tryIntoU32ofInt_lt hcb (hb b hbm),
      tryIntoU32ofInt_lt hcc (hb c hc)⟩
  | listUShort l =>
    simp only [propValsBelow] at hb
    obtain ⟨⟨a, ha, hca⟩, ⟨b, hbm, hcb⟩, ⟨c, hc, hcc⟩⟩ :=
      extract_indices_components _ _ _ _ h
    exact ⟨tryIntoU32ofNat_lt hca (hb a ha), tryIntoU32ofNat_lt hcb (hb b hbm),
      tryIntoU32ofNat_lt hcc (hb c hc)⟩
  | listShort l =>
    simp only [propValsBelow] at hb
    obtain ⟨⟨a, ha, hca⟩, ⟨b, hbm, hcb⟩, ⟨c, hc, hcc⟩⟩ :=
      extract_indices_components _ _ _ _ h
    exact ⟨tryIntoU32ofInt_lt hca (hb a ha), tryIntoU32ofInt_lt hcb (hb b hbm),
      tryIntoU32ofInt_lt hcc (hb c hc)⟩
  | float q => cases h
  | double q => cases h
  | otherProp => cases h

theorem extractFaces_lt :
    ∀ (frecs : List PlyRecord) (i0 : ℕ) (ts : List Tri) (n : ℕ),
      extractFaces frecs i0 = .ok ts → (∀ f ∈ frecs, faceValsBelow f n) →
      ∀ t ∈ ts, t.1 < n ∧ t.2.1 < n ∧ t.2.2 < n
  | [], i0, ts, n => by
    intro h _ t ht
    injection h with h
    rw [← h] at ht
    cases ht
  | f :: frecs, i0, ts, n => by
    intro h hb t ht
    unfold extractFaces at h
    rcases hft : faceTri f i0 with e | t0 <;> rw [hft] at h
    · cases h
    rcases hr : extractFaces frecs (i0 + 1) with e | ts0 <;> rw [hr] at h
    · cases h
    injection h with h
    rw [← h] at ht
    rcases List.mem_cons.mp ht with rfl | hmem
    · exact faceTri_lt f i0 t n hft (hb f (by simp))
    · exact extractFaces_lt frecs (i0 + 1) ts0 n hr
        (fun g hg => hb g (List.mem_cons_of_mem f hg)) t hmem

theorem applyScale_length (scale : ℚ) (vs : List V3) :
    (applyScale scale vs).length = vs.length := by
  unfold applyScale
  split
  · rw [List.length_map]
  · rfl

/-- Claim C1 (amended): the loader itself performs no index-bounds check, so
the invariant `every index < len(vertices)` holds for a mesh returned by the
PLY route of `load_trimesh_with_flags` (empty flag set) provided every index
value stored in the source document's faces is below the number of the
document's vertex records. -/
theorem ply_load_indices_in_range (payload : PlyPayload) (scale : ℚ)
    (m : SubMesh) (hload : load_ply_trimesh_empty_flags payload scale = .ok m)
    (hsrc : plySourceIndicesInRange payload) : indicesInRange m := by
  unfold load_ply_trimesh_empty_flags at hload
  unfold load_trimesh_from_ply at hload
  unfold plySourceIndicesInRange at hsrc
  rcases hv : payload.lookup ("vertex") with _ | vrecs <;> rw [hv] at hload hsrc
  · cases hload
  dsimp only at hload hsrc
  rcases hf : payload.lookup ("face") with _ | frecs <;> rw [hf] at hload
  · dsimp only at hload
    rcases hev : extractVertices vrecs with e | vs <;> rw [hev] at hload <;>
      cases hload
  dsimp only at hload
  unfold payloadFaceIndicesBelow at hsrc
  rw [hf] at hsrc
  dsimp only at hsrc
  rcases hev : extractVertices vrecs with e | vs <;> rw [hev] at hload
  · cases hload
  dsimp only at hload
  rcases hef : extractFaces frecs 0 with e | is <;> rw [hef] at hload
  · cases hload
  dsimp only at hload
  injection hload with hload
  rw [← hload]
  intro t ht
  have hlen : (applyScale scale vs).length = vrecs.length := by
    rw [applyScale_length, extractVertices_length vrecs vs hev]
  rw [hlen]
  exact extractFaces_lt frecs 0 is vrecs.length hef hsrc t ht

theorem scale_one_small : ¬ |(1 : ℚ) - 1| > f32EPSILON := by
  norm_num [f32EPSILON]

/-- Witness for C1 (amended): a well-formed three-vertex one-face document
loads into a mesh whose indices are all in range. -/
theorem ply_load_indices_in_range_witness :
    indicesInRange
      ([((0 : ℚ), (0 : ℚ), (0 : ℚ)), ((1 : ℚ), (0 : ℚ), (0 : ℚ)),
        ((0 : ℚ), (1 : ℚ), (0 : ℚ))], [(0, 1, 2)]) := by
  refine ply_load_indices_in_range plyDocGood 1 _ ?_ (by decide)
  unfold load_ply_trimesh_empty_flags
  rw [show load_trimesh_from_ply plyDocGood =
    .ok ([((0 : ℚ), (0 : ℚ), (0 : ℚ)), ((1 : ℚ), (0 : ℚ), (0 : ℚ)),
      ((0 : ℚ), (1 : ℚ), (0 : ℚ))], [(0, 1, 2)]) from rfl]
  show Except.ok (applyScale 1 _, _) = _
  unfold applyScale
  rw [if_neg scale_one_small]

/-- Counterexample to C1 as stated: a PLY document with one single vertex
record but a face (0,1,2) loads successfully (empty flags, scale 1) into a
mesh whose indices 1 and 2 are not below its vertex count 1. -/
theorem ply_load_out_of_range :
    load_ply_trimesh_empty_flags plyDocBad 1 =
      .ok ([((0 : ℚ), (0 : ℚ), (0 : ℚ))], [(0, 1, 2)])
    ∧ ¬ indicesInRange ([((0 : ℚ), (0 : ℚ), (0 : ℚ))], [(0, 1, 2)]) := by
  constructor
  · unfold load_ply_trimesh_empty_flags
    rw [show load_trimesh_from_ply plyDocBad =
      .ok ([((0 : ℚ), (0 : ℚ), (0 : ℚ))], [(0, 1, 2)]) from rfl]
    show Except.ok (applyScale 1 _, _) = _
    unfold applyScale
    rw [if_neg scale_one_small]
  · decide
